import Mathlib

/-!
Verification of the Violation Rule Engine of the `ehs-audit-agent`
repository (`src/ai-compliance-vision/src/violation_engine.py`).

The Python module is embedded shallowly:

* detections and rule entries become Lean structures; the raw JSON entry
  keeps optional fields, mirroring `entry.get(...)`;
* the loaded standards (`self.standards`, a `dict` keyed by file stem)
  become an association list preserving insertion order, which is the
  iteration order of a Python `dict`;
* floating point arithmetic on pixel coordinates and confidences is
  embedded exactly over `ℚ`; the comparison
  `float(np.sqrt(d2)) < 200.0` is embedded as `d2 < 200 ^ 2`, which for a
  positive threshold is equivalent to the real-valued comparison
  `Real.sqrt d2 < 200` (a bridging lemma below proves this);
* the filesystem behaviour of `ViolationEngine._load_standards` is
  embedded as a function over an abstract directory snapshot.  Note that
  CPython's `pathlib.Path.glob` returns an empty iterator when the
  directory does not exist (`_Selector.select_from` returns `iter([])`
  when the parent is not a directory) and suppresses `PermissionError`
  while scanning, so a missing or unreadable directory produces no files
  and no exception; only `json.load` (malformed document) raises.
-/

namespace EhsAudit

/-- A bounding box `[x1, y1, x2, y2]` in pixel coordinates, as carried in
the `bbox` field of a detection dictionary. -/
structure BBox where
  x1 : ℚ
  y1 : ℚ
  x2 : ℚ
  y2 : ℚ
deriving DecidableEq, Repr

/-- One detection dictionary as consumed by `ViolationEngine.evaluate`:
keys `class_name`, `condition`, `confidence`, `bbox`. -/
structure Detection where
  class_name : String
  condition : String
  confidence : ℚ
  bbox : BBox
deriving DecidableEq, Repr

/-- One raw rule entry, the value of one citation key inside a standards
JSON document.  The Python code reads every field with `entry.get`, so
every field may be absent; an absent field is `none`. -/
structure RuleEntry where
  condition : Option String
  description : Option String
  severity : Option String
deriving DecidableEq, Repr

/-- One standards document: a mapping from citation identifier to rule
entry, in document (= Python `dict` insertion) order. -/
abbrev StandardDoc := List (String × RuleEntry)

/-- The loaded `self.standards` mapping: standard name (lower-cased file
stem) to document, in load order. -/
abbrev Standards := List (String × StandardDoc)

/-- One element of the list returned by
`ViolationEngine._lookup_condition`: the dictionary
`{standard, citation, description, severity}` built for a matching
entry. -/
structure RuleMatch where
  standard : String
  citation : String
  description : String
  severity : String
deriving DecidableEq, Repr

/-- The `evidence` value of a violation dictionary: either
`{bbox, class_name}` (direct match) or
`{person_bbox, forklift_bbox}` (proximity match). -/
inductive Evidence where
  | singleBox (bbox : BBox) (class_name : String)
  | doubleBox (person_bbox forklift_bbox : BBox)
deriving DecidableEq, Repr

/-- One violation dictionary as returned by `ViolationEngine.evaluate`. -/
structure Violation where
  standard : String
  citation : String
  description : String
  severity : String
  confidence : ℚ
  evidence : Evidence
deriving DecidableEq, Repr

/-- Python's `str.upper()` on the ASCII standard names used here,
embedded as a character-wise map (`Char.toUpper` upcases exactly the
ASCII range, which is what `str.upper` does on these inputs). -/
def strUpper (s : String) : String :=
  ⟨s.data.map Char.toUpper⟩

/-- Python's `str.lower()` on the ASCII file stems used here, embedded as
a character-wise map. -/
def strLower (s : String) : String :=
  ⟨s.data.map Char.toLower⟩

/-- The body of the inner loop of `ViolationEngine._lookup_condition`:
build a match for one `(citation, entry)` pair when
`entry.get("condition") == condition`; missing `description` or
`severity` default to `""` via `entry.get(..., "")`; the standard name is
upper-cased (`std_name.upper()`). -/
def matchEntry (std_name citation : String) (entry : RuleEntry)
    (condition : String) : Option RuleMatch :=
  if entry.condition = some condition then
    some { standard := strUpper std_name
           citation := citation
           description := entry.description.getD ""
           severity := entry.severity.getD "" }
  else
    none

/-- `ViolationEngine._lookup_condition`: scan every loaded standard in
order, and within one standard every citation entry in order, collecting
the matches. -/
def lookupCondition (standards : Standards) (condition : String) :
    List RuleMatch :=
  standards.flatMap fun std =>
    std.2.filterMap fun ce => matchEntry std.1 ce.1 ce.2 condition

/-- `ViolationEngine._bbox_center`: the midpoint of `(x1, y1)` and
`(x2, y2)`. -/
def bboxCenter (bbox : BBox) : ℚ × ℚ :=
  ((bbox.x1 + bbox.x2) / 2, (bbox.y1 + bbox.y2) / 2)

/-- The squared Euclidean distance between two centers.  The Python code
computes `float(np.sqrt(...))`; over exact arithmetic the comparison of
the root against a positive threshold is equivalent to comparing this
square against the squared threshold. -/
def euclideanDistanceSq (p1 p2 : ℚ × ℚ) : ℚ :=
  (p1.1 - p2.1) ^ 2 + (p1.2 - p2.2) ^ 2

/-- The proximity threshold hard-coded in `ViolationEngine.evaluate`
(`threshold = 200.0`). -/
def distanceThreshold : ℚ := 200

/-- The distance test of the proximity loop:
`distance < threshold` with `threshold = 200.0`, rendered on squared
distances. -/
def closePair (person forklift : Detection) : Bool :=
  decide (euclideanDistanceSq (bboxCenter person.bbox)
    (bboxCenter forklift.bbox) < distanceThreshold ^ 2)

/-- The violation dictionary appended for one direct match:
`{**match, confidence, evidence: {bbox, class_name}}`. -/
def directViolation (det : Detection) (m : RuleMatch) : Violation :=
  { standard := m.standard
    citation := m.citation
    description := m.description
    severity := m.severity
    confidence := det.confidence
    evidence := .singleBox det.bbox det.class_name }

/-- The violation dictionary appended for one proximity match:
`{**match, confidence: min(...), evidence: {person_bbox, forklift_bbox}}`. -/
def compoundViolation (person forklift : Detection) (m : RuleMatch) :
    Violation :=
  { standard := m.standard
    citation := m.citation
    description := m.description
    severity := m.severity
    confidence := min person.confidence forklift.confidence
    evidence := .doubleBox person.bbox forklift.bbox }

/-- `ViolationEngine.evaluate`, embedded statement by statement: first
the loop over individual detections, then the person/forklift partition,
then — only when both partitions are non-empty, mirroring
`if persons and forklifts:` — the nested proximity loops appending to the
same list. -/
def evaluate (standards : Standards) (detections : List Detection) :
    List Violation :=
  let violations := detections.flatMap fun det =>
    (lookupCondition standards det.condition).map (directViolation det)
  let persons := detections.filter fun d => d.condition == "person"
  let forklifts := detections.filter fun d => d.condition == "forklift"
  if persons.isEmpty || forklifts.isEmpty then
    violations
  else
    violations ++ persons.flatMap fun person =>
      forklifts.flatMap fun forklift =>
        if closePair person forklift then
          (lookupCondition standards "forklift_pedestrian_proximity").map
            (compoundViolation person forklift)
        else
          []

/-- The direct phase of `evaluate` on its own (step 1 of the spec):
violations in detection-input order, and within one detection in Rule
Store lookup order. -/
def directViolations (standards : Standards) (detections : List Detection) :
    List Violation :=
  detections.flatMap fun det =>
    (lookupCondition standards det.condition).map (directViolation det)

/-- The (person, forklift) pairs the proximity loops of `evaluate` accept:
person-major iteration over the two partitions, keeping a pair exactly
when the distance test passes.  The leading emptiness guard mirrors
`if persons and forklifts:` in the source. -/
def proximityPairs (detections : List Detection) :
    List (Detection × Detection) :=
  let persons := detections.filter fun d => d.condition == "person"
  let forklifts := detections.filter fun d => d.condition == "forklift"
  if persons.isEmpty || forklifts.isEmpty then
    []
  else
    persons.flatMap fun person =>
      (forklifts.filter fun forklift => closePair person forklift).map
        fun forklift => (person, forklift)

/-- The compound phase of `evaluate` on its own (step 2 of the spec):
one violation per accepted pair per matching rule entry, in
pair-iteration order and, within one pair, Rule Store lookup order. -/
def compoundViolations (standards : Standards)
    (detections : List Detection) : List Violation :=
  (proximityPairs detections).flatMap fun pf =>
    (lookupCondition standards "forklift_pedestrian_proximity").map
      (compoundViolation pf.1 pf.2)

/-! ### Rule Store construction (`ViolationEngine.__init__` / `_load_standards`) -/

/-- One `*.json` file of the standards directory: its file stem and the
outcome of `json.load` on its contents (`none` when the document is
malformed and `json.load` would raise `JSONDecodeError`). -/
structure RuleFile where
  stem : String
  parse : Option StandardDoc
deriving DecidableEq

/-- A snapshot of the standards directory handed to the constructor.
`accessible` is false when the directory is missing or unreadable;
`files` lists the `*.json` files in the order `Path.glob` yields them. -/
structure StandardsDir where
  accessible : Bool
  files : List RuleFile
deriving DecidableEq

/-- The file sequence produced by `directory.glob("*.json")`.  CPython's
`pathlib` yields an empty iterator when the directory is not present
(`_Selector.select_from` returns `iter([])` when the parent is not a
directory) and suppresses `PermissionError` while scanning, so an
inaccessible directory contributes no files and raises nothing. -/
def globJson (dir : StandardsDir) : List RuleFile :=
  if dir.accessible then dir.files else []

/-- The loop body of `ViolationEngine._load_standards`: process the
files one by one, extending the `self.standards` mapping with
`(stem.lower(), data)`; a file whose document fails `json.load` raises,
aborting the loop (and the constructor) at that point, so the partially
filled mapping never reaches the caller. -/
def loadFiles : List RuleFile → Standards → Except String Standards
  | [], acc => .ok acc
  | file :: rest, acc =>
    match file.parse with
    | some data => loadFiles rest (acc ++ [(strLower file.stem, data)])
    | none => .error ("json.load failed for " ++ file.stem ++ ".json")

/-- `ViolationEngine.__init__`: start from an empty mapping and load
every globbed file; the result is the engine's `self.standards`, or the
exception that escaped the constructor. -/
def loadStandards (dir : StandardsDir) : Except String Standards :=
  loadFiles (globJson dir) []

/-! ### State-passing rendering of `evaluate`

The Python method runs against the mutable object state
`self.standards`.  To settle the frame claim the method is re-embedded in
explicit state-passing style, every helper returning the standards
mapping it leaves behind; the body below follows the source loop by
loop. -/

/-- `self._lookup_condition` as a state-passing call: it only reads
`self.standards`. -/
def lookupConditionS (standards : Standards) (condition : String) :
    List RuleMatch × Standards :=
  (lookupCondition standards condition, standards)

/-- The first loop of `evaluate` (`for det in detections:`), threading
the object state through each `_lookup_condition` call. -/
def directLoopS : Standards → List Detection → List Violation →
    List Violation × Standards
  | standards, [], violations => (violations, standards)
  | standards, det :: rest, violations =>
    let r := lookupConditionS standards det.condition
    directLoopS r.2 rest (violations ++ r.1.map (directViolation det))

/-- The inner proximity loop (`for forklift in forklifts:`), threading
the object state. -/
def forkliftLoopS (person : Detection) : Standards → List Detection →
    List Violation → List Violation × Standards
  | standards, [], violations => (violations, standards)
  | standards, forklift :: rest, violations =>
    if closePair person forklift then
      let r := lookupConditionS standards "forklift_pedestrian_proximity"
      forkliftLoopS person r.2 rest
        (violations ++ r.1.map (compoundViolation person forklift))
    else
      forkliftLoopS person standards rest violations

/-- The outer proximity loop (`for person in persons:`), threading the
object state. -/
def personLoopS (forklifts : List Detection) : Standards →
    List Detection → List Violation → List Violation × Standards
  | standards, [], violations => (violations, standards)
  | standards, person :: rest, violations =>
    let r := forkliftLoopS person standards forklifts violations
    personLoopS forklifts r.2 rest r.1

/-- `ViolationEngine.evaluate` in state-passing form: the returned
`Standards` is the `self.standards` the object holds after the call. -/
def evaluateS (standards : Standards) (detections : List Detection) :
    List Violation × Standards :=
  let r := directLoopS standards detections []
  let persons := detections.filter fun d => d.condition == "person"
  let forklifts := detections.filter fun d => d.condition == "forklift"
  if persons.isEmpty || forklifts.isEmpty then
    r
  else
    personLoopS forklifts r.2 persons r.1

/-! ### The Proximity Analyzer of the specification -/

/-- A compound match as described by the specification's Proximity
Analyzer contract. -/
structure CompoundMatch where
  condition : String
  confidence : ℚ
  boxA : BBox
  boxB : BBox
deriving DecidableEq

/-- The distance test at a caller-chosen threshold (squared form; for a
positive threshold this is the comparison of the Euclidean distance
against the threshold). -/
def closeAt (threshold : ℚ) (a b : Detection) : Bool :=
  decide (euclideanDistanceSq (bboxCenter a.bbox)
    (bboxCenter b.bbox) < threshold ^ 2)

/-- Modelled from the spec: the Proximity Analyzer operation
`findCompoundConditions(detections, classA, classB,
synthesizedCondition, distanceThreshold)` — partition the detections by
condition, and for every pair whose box-center distance is strictly
below the caller-supplied threshold emit a compound match with the
synthesized condition, the minimum of the two confidences and the two
boxes as evidence.  No operation of the source takes the threshold as an
argument; this definition exists to compare the source against the
spec's parametrised contract. -/
def findCompoundConditions (detections : List Detection)
    (classA classB synthesizedCondition : String) (threshold : ℚ) :
    List CompoundMatch :=
  let as := detections.filter fun d => d.condition == classA
  let bs := detections.filter fun d => d.condition == classB
  as.flatMap fun a =>
    (bs.filter fun b => closeAt threshold a b).map fun b =>
      { condition := synthesizedCondition
        confidence := min a.confidence b.confidence
        boxA := a.bbox
        boxB := b.bbox }

/-- The compound matches actually produced inside `evaluate`: the
accepted pairs, each carrying the synthetic condition
`"forklift_pedestrian_proximity"`, the minimum confidence and the two
boxes. -/
def codeCompoundMatches (detections : List Detection) :
    List CompoundMatch :=
  (proximityPairs detections).map fun pf =>
    { condition := "forklift_pedestrian_proximity"
      confidence := min pf.1.confidence pf.2.confidence
      boxA := pf.1.bbox
      boxB := pf.2.bbox }

/-! ### Concrete sample data

Degenerate boxes (`x1 = x2`, `y1 = y2`) place a detection's center at an
exact pixel; the engine never validates box extent, so these are legal
inputs.  `samplePerson` has its center at `(100, 100)`;
`closeForklift` at `(150, 100)` (distance `50`), `boundaryForklift` at
`(220, 260)` (distance exactly `200`), `farForklift` at `(350, 100)`
(distance `250`). -/

/-- A person detection with confidence `0.8`, center `(100, 100)`. -/
def samplePerson : Detection :=
  { class_name := "person", condition := "person", confidence := 8/10,
    bbox := ⟨100, 100, 100, 100⟩ }

/-- A forklift detection with confidence `0.6`, center `(150, 100)`. -/
def closeForklift : Detection :=
  { class_name := "forklift", condition := "forklift", confidence := 6/10,
    bbox := ⟨150, 100, 150, 100⟩ }

/-- A forklift detection whose center `(220, 260)` is at distance exactly
`200` from `samplePerson`. -/
def boundaryForklift : Detection :=
  { class_name := "forklift", condition := "forklift", confidence := 6/10,
    bbox := ⟨220, 260, 220, 260⟩ }

/-- A forklift detection whose center `(350, 100)` is at distance `250`
from `samplePerson`. -/
def farForklift : Detection :=
  { class_name := "forklift", condition := "forklift", confidence := 6/10,
    bbox := ⟨350, 100, 350, 100⟩ }

/-- A store with one proximity rule entry. -/
def proxStore : Standards :=
  [("osha", [("1910.178",
    { condition := some "forklift_pedestrian_proximity",
      description := some "Powered industrial trucks",
      severity := some "high" })])]

/-- The rule set of the specification's direct-match scenario. -/
def oshaStore : Standards :=
  [("osha", [("1926.100",
    { condition := some "hardhat_missing",
      description := some "Head protection required",
      severity := some "high" })])]

/-- The detection of the specification's direct-match scenario. -/
def hardhatDetection : Detection :=
  { class_name := "hardhat_missing", condition := "hardhat_missing",
    confidence := 91/100, bbox := ⟨10, 10, 50, 80⟩ }

/-! ### Helper lemmas -/

/-- Membership in `_lookup_condition` output, characterised against the
loaded standards. -/
lemma mem_lookupCondition {standards : Standards} {c : String}
    {m : RuleMatch} :
    m ∈ lookupCondition standards c ↔
      ∃ std ∈ standards, ∃ ce ∈ std.2, ce.2.condition = some c ∧
        m = { standard := strUpper std.1, citation := ce.1,
              description := ce.2.description.getD "",
              severity := ce.2.severity.getD "" } := by
  simp only [lookupCondition, List.mem_flatMap, List.mem_filterMap]
  constructor
  · rintro ⟨std, hstd, ce, hce, hm⟩
    unfold matchEntry at hm
    by_cases h : ce.2.condition = some c
    · rw [if_pos h] at hm
      exact ⟨std, hstd, ce, hce, h, (Option.some_inj.mp hm).symm⟩
    · rw [if_neg h] at hm
      cases hm
  · rintro ⟨std, hstd, ce, hce, h, rfl⟩
    exact ⟨std, hstd, ce, hce, by rw [matchEntry, if_pos h]⟩

/-- Filtering before a flat map is the same as flat-mapping a guarded
body. -/
lemma filter_flatMap_eq {α β : Type} (l : List α) (q : α → Bool)
    (h : α → List β) :
    (l.filter q).flatMap h = l.flatMap fun x => if q x then h x else [] := by
  induction l with
  | nil => rfl
  | cons x xs ih =>
    by_cases hx : q x <;> simp [List.filter_cons, hx, ih]

/-- The nested guarded loops of `evaluate` are the flat map of the body
over the accepted pairs. -/
lemma flatMap_pairs_eq {α β γ : Type} (as : List α) (bs : List β)
    (q : α → β → Bool) (g : α → β → List γ) :
    (as.flatMap fun a => bs.flatMap fun b => if q a b then g a b else []) =
      (as.flatMap fun a => (bs.filter (q a)).map fun b => (a, b)).flatMap
        fun ab => g ab.1 ab.2 := by
  induction as with
  | nil => rfl
  | cons a as ih =>
    simp only [List.flatMap_cons, List.flatMap_append, ih]
    congr 1
    rw [List.flatMap_map, ← filter_flatMap_eq]

/-- Membership in the accepted proximity pairs. -/
lemma mem_proximityPairs {detections : List Detection} {p f : Detection} :
    (p, f) ∈ proximityPairs detections ↔
      p ∈ detections ∧ p.condition = "person" ∧ f ∈ detections ∧
        f.condition = "forklift" ∧ closePair p f = true := by
  unfold proximityPairs
  by_cases hg : ((detections.filter fun d => d.condition == "person").isEmpty
      || (detections.filter fun d => d.condition == "forklift").isEmpty)
      = true
  · simp only [hg, if_true, List.not_mem_nil, false_iff]
    rintro ⟨hp, hpc, hf, hfc, -⟩
    rcases Bool.or_eq_true_iff.mp hg with h | h
    · have hmem : p ∈ detections.filter fun d => d.condition == "person" :=
        List.mem_filter.mpr ⟨hp, by simp [hpc]⟩
      rw [List.isEmpty_iff.mp h] at hmem
      exact absurd hmem (List.not_mem_nil p)
    · have hmem : f ∈ detections.filter fun d => d.condition == "forklift" :=
        List.mem_filter.mpr ⟨hf, by simp [hfc]⟩
      rw [List.isEmpty_iff.mp h] at hmem
      exact absurd hmem (List.not_mem_nil f)
  · rw [Bool.not_eq_true] at hg
    simp only [hg, Bool.false_eq_true, if_false, List.mem_flatMap,
      List.mem_map, List.mem_filter, beq_iff_eq, Prod.mk.injEq]
    constructor
    · rintro ⟨p', ⟨hp', hpc'⟩, f', ⟨⟨hf', hfc'⟩, hcl⟩, rfl, rfl⟩
      exact ⟨hp', hpc', hf', hfc', hcl⟩
    · rintro ⟨hp, hpc, hf, hfc, hcl⟩
      exact ⟨p, ⟨hp, hpc⟩, f, ⟨⟨hf, hfc⟩, hcl⟩, rfl, rfl⟩

/-- `evaluate` decomposes into its direct phase followed by its compound
phase. -/
lemma evaluate_eq (standards : Standards) (detections : List Detection) :
    evaluate standards detections =
      directViolations standards detections ++
        compoundViolations standards detections := by
  unfold evaluate directViolations compoundViolations proximityPairs
  by_cases hg : ((detections.filter fun d => d.condition == "person").isEmpty
      || (detections.filter fun d => d.condition == "forklift").isEmpty)
      = true
  · simp [hg]
  · rw [Bool.not_eq_true] at hg
    simp only [hg, Bool.false_eq_true, if_false]
    rw [flatMap_pairs_eq]

/-- Flat-mapping a constant-length body multiplies lengths. -/
lemma length_flatMap_map_const {α β γ : Type} (l : List α) (m : List β)
    (g : α → β → γ) :
    (l.flatMap fun a => m.map (g a)).length = l.length * m.length := by
  induction l with
  | nil => simp
  | cons a as ih =>
    simp only [List.flatMap_cons, List.length_append, List.length_map, ih,
      List.length_cons]
    ring

/-- Comparing a square root against a positive threshold is comparing the
square against the squared threshold (the bridge between the source's
`np.sqrt(d2) < threshold` and the squared form used in the embedding). -/
lemma sqrt_lt_iff_sq_lt (d2 t : ℚ) (ht : 0 < t) :
    Real.sqrt (d2 : ℝ) < (t : ℝ) ↔ d2 < t ^ 2 := by
  rw [Real.sqrt_lt' (by exact_mod_cast ht)]
  constructor <;> intro h <;> exact_mod_cast h

/-- The direct loop threads the standards through unchanged and appends
the direct violations of the remaining detections. -/
lemma directLoopS_eq (standards : Standards) :
    ∀ (detections : List Detection) (acc : List Violation),
      directLoopS standards detections acc =
        (acc ++ directViolations standards detections, standards) := by
  intro detections
  induction detections with
  | nil => intro acc; simp [directLoopS, directViolations]
  | cons det rest ih =>
    intro acc
    simp [directLoopS, lookupConditionS, ih, directViolations,
      List.append_assoc]

/-- The inner proximity loop threads the standards through unchanged. -/
lemma forkliftLoopS_eq (person : Detection) (standards : Standards) :
    ∀ (forklifts : List Detection) (acc : List Violation),
      forkliftLoopS person standards forklifts acc =
        (acc ++ forklifts.flatMap fun forklift =>
          if closePair person forklift then
            (lookupCondition standards "forklift_pedestrian_proximity").map
              (compoundViolation person forklift)
          else
            [], standards) := by
  intro forklifts
  induction forklifts with
  | nil => intro acc; simp [forkliftLoopS]
  | cons forklift rest ih =>
    intro acc
    by_cases h : closePair person forklift
    · simp [forkliftLoopS, h, lookupConditionS, ih, List.append_assoc]
    · simp [forkliftLoopS, h, ih]

/-- The outer proximity loop threads the standards through unchanged. -/
lemma personLoopS_eq (forklifts : List Detection) (standards : Standards) :
    ∀ (persons : List Detection) (acc : List Violation),
      personLoopS forklifts standards persons acc =
        (acc ++ persons.flatMap fun person =>
          forklifts.flatMap fun forklift =>
            if closePair person forklift then
              (lookupCondition standards "forklift_pedestrian_proximity").map
                (compoundViolation person forklift)
            else
              [], standards) := by
  intro persons
  induction persons with
  | nil => intro acc; simp [personLoopS]
  | cons person rest ih =>
    intro acc
    simp [personLoopS, forkliftLoopS_eq, ih, List.append_assoc]

/-- Membership in the compound phase of `evaluate`. -/
lemma mem_compoundViolations {standards : Standards}
    {detections : List Detection} {v : Violation} :
    v ∈ compoundViolations standards detections ↔
      ∃ pf ∈ proximityPairs detections,
        ∃ m ∈ lookupCondition standards "forklift_pedestrian_proximity",
          v = compoundViolation pf.1 pf.2 m := by
  simp only [compoundViolations, List.mem_flatMap, List.mem_map]
  constructor
  · rintro ⟨pf, hpf, m, hm, rfl⟩
    exact ⟨pf, hpf, m, hm, rfl⟩
  · rintro ⟨pf, hpf, m, hm, rfl⟩
    exact ⟨pf, hpf, m, hm, rfl⟩

/-- Membership in the spec-modelled Proximity Analyzer output. -/
lemma mem_findCompoundConditions {detections : List Detection}
    {classA classB sc : String} {t : ℚ} {m : CompoundMatch} :
    m ∈ findCompoundConditions detections classA classB sc t ↔
      ∃ a, (a ∈ detections ∧ a.condition = classA) ∧
        ∃ b, (b ∈ detections ∧ b.condition = classB) ∧
          closeAt t a b = true ∧
          m = { condition := sc,
                confidence := min a.confidence b.confidence,
                boxA := a.bbox, boxB := b.bbox } := by
  simp only [findCompoundConditions, List.mem_flatMap, List.mem_map,
    List.mem_filter, beq_iff_eq]
  constructor
  · rintro ⟨a, ⟨ha, hac⟩, b, ⟨⟨hb, hbc⟩, hcl⟩, rfl⟩
    exact ⟨a, ⟨ha, hac⟩, b, ⟨hb, hbc⟩, hcl, rfl⟩
  · rintro ⟨a, ⟨ha, hac⟩, b, ⟨hb, hbc⟩, hcl, rfl⟩
    exact ⟨a, ⟨ha, hac⟩, b, ⟨⟨hb, hbc⟩, hcl⟩, rfl⟩

/-- Upper-casing the sample store's standard name. -/
lemma strUpper_osha : strUpper "osha" = "OSHA" := rfl

/-- `samplePerson` and `closeForklift` are 50 pixels apart: accepted. -/
lemma closePair_sample_close : closePair samplePerson closeForklift = true := by
  simp only [closePair, decide_eq_true_eq]
  norm_num [euclideanDistanceSq, bboxCenter, distanceThreshold,
    samplePerson, closeForklift]

/-- `samplePerson` and `farForklift` are 250 pixels apart: rejected. -/
lemma closePair_sample_far : closePair samplePerson farForklift = false := by
  simp only [closePair, decide_eq_false_iff_not, not_lt]
  norm_num [euclideanDistanceSq, bboxCenter, distanceThreshold,
    samplePerson, farForklift]

/-- At a caller threshold of 300 the spec's analyzer accepts the
250-pixel pair. -/
lemma closeAt_300_far : closeAt 300 samplePerson farForklift = true := by
  simp only [closeAt, decide_eq_true_eq]
  norm_num [euclideanDistanceSq, bboxCenter, samplePerson, farForklift]

/-- The sample proximity store matches the synthetic condition with one
entry. -/
lemma lookup_prox :
    lookupCondition proxStore "forklift_pedestrian_proximity" =
      [{ standard := "OSHA", citation := "1910.178",
         description := "Powered industrial trucks", severity := "high" }] :=
  rfl

/-- A malformed document anywhere in the file list aborts the load with
an error, whatever has been accumulated so far. -/
lemma loadFiles_error_of_malformed :
    ∀ (files : List RuleFile) (acc : Standards),
      (∃ f ∈ files, f.parse = none) →
        ∃ msg, loadFiles files acc = .error msg := by
  intro files
  induction files with
  | nil =>
    rintro acc ⟨f, hf, -⟩
    exact absurd hf (List.not_mem_nil f)
  | cons file rest ih =>
    rintro acc ⟨f, hf, hfp⟩
    rcases List.mem_cons.mp hf with rfl | hmem
    · exact ⟨_, by rw [loadFiles, hfp]⟩
    · match hparse : file.parse with
      | none => exact ⟨_, by rw [loadFiles, hparse]⟩
      | some data =>
        obtain ⟨msg, hmsg⟩ := ih _ ⟨f, hmem, hfp⟩
        exact ⟨msg, by rw [loadFiles, hparse]; exact hmsg⟩

/-! ### Claim theorems -/

/-- Claim C1: for every detection list, the proximity logic accepts a
(person, forklift) pair exactly when the Euclidean distance between the
two bounding-box centers is strictly below the distance threshold, and a
pair whose distance equals the threshold exactly is never accepted
(strict comparison). -/
theorem proximity_match_iff_distance_lt (detections : List Detection)
    (p f : Detection) (hp : p ∈ detections) (hpc : p.condition = "person")
    (hf : f ∈ detections) (hfc : f.condition = "forklift") :
    ((p, f) ∈ proximityPairs detections ↔
      Real.sqrt ((euclideanDistanceSq (bboxCenter p.bbox)
          (bboxCenter f.bbox) : ℚ) : ℝ) < (distanceThreshold : ℝ)) ∧
    (Real.sqrt ((euclideanDistanceSq (bboxCenter p.bbox)
        (bboxCenter f.bbox) : ℚ) : ℝ) = (distanceThreshold : ℝ) →
      (p, f) ∉ proximityPairs detections) := by
  have hiff : ((p, f) ∈ proximityPairs detections) ↔ closePair p f = true := by
    rw [mem_proximityPairs]
    simp [hp, hpc, hf, hfc]
  have hcl : closePair p f = true ↔
      euclideanDistanceSq (bboxCenter p.bbox) (bboxCenter f.bbox)
        < distanceThreshold ^ 2 := by
    simp [closePair]
  have hbr := sqrt_lt_iff_sq_lt
    (euclideanDistanceSq (bboxCenter p.bbox) (bboxCenter f.bbox))
    distanceThreshold (by norm_num [distanceThreshold])
  refine ⟨by rw [hiff, hcl, ← hbr], ?_⟩
  intro heq hmem
  have h2 := hbr.mpr (hcl.mp (hiff.mp hmem))
  rw [heq] at h2
  exact lt_irrefl _ h2

/-- Witness for C1 at concrete inputs: the 50-pixel pair is accepted, the
exactly-200-pixel pair is not. -/
theorem proximity_match_iff_distance_lt_witness :
    ((samplePerson, closeForklift) ∈
      proximityPairs [samplePerson, closeForklift, boundaryForklift]) ∧
    ((samplePerson, boundaryForklift) ∉
      proximityPairs [samplePerson, closeForklift, boundaryForklift]) := by
  have hd1 : euclideanDistanceSq (bboxCenter samplePerson.bbox)
      (bboxCenter closeForklift.bbox) = 2500 := by
    norm_num [euclideanDistanceSq, bboxCenter, samplePerson, closeForklift]
  have hd2 : euclideanDistanceSq (bboxCenter samplePerson.bbox)
      (bboxCenter boundaryForklift.bbox) = 40000 := by
    norm_num [euclideanDistanceSq, bboxCenter, samplePerson,
      boundaryForklift]
  have hs1 : Real.sqrt ((euclideanDistanceSq (bboxCenter samplePerson.bbox)
      (bboxCenter closeForklift.bbox) : ℚ) : ℝ)
      < (distanceThreshold : ℝ) := by
    rw [hd1, show ((2500 : ℚ) : ℝ) = 50 ^ 2 by norm_num,
      Real.sqrt_sq (by norm_num : (0 : ℝ) ≤ 50)]
    norm_num [distanceThreshold]
  have hs2 : Real.sqrt ((euclideanDistanceSq (bboxCenter samplePerson.bbox)
      (bboxCenter boundaryForklift.bbox) : ℚ) : ℝ)
      = (distanceThreshold : ℝ) := by
    rw [hd2, show ((40000 : ℚ) : ℝ) = 200 ^ 2 by norm_num,
      Real.sqrt_sq (by norm_num : (0 : ℝ) ≤ 200)]
    norm_num [distanceThreshold]
  exact ⟨(proximity_match_iff_distance_lt _ _ _ (by simp) rfl (by simp)
      rfl).1.mpr hs1,
    (proximity_match_iff_distance_lt _ _ _ (by simp) rfl (by simp)
      rfl).2 hs2⟩

/-- Claim C2: every violation produced by the compound phase of
`evaluate` carries the minimum of the two contributing detections'
confidences (and those two detections' boxes as evidence). -/
theorem compound_confidence_min (standards : Standards)
    (detections : List Detection) (v : Violation)
    (hv : v ∈ compoundViolations standards detections) :
    ∃ p f : Detection, (p, f) ∈ proximityPairs detections ∧
      v.confidence = min p.confidence f.confidence ∧
      v.evidence = .doubleBox p.bbox f.bbox := by
  obtain ⟨pf, hpf, m, hm, rfl⟩ := mem_compoundViolations.mp hv
  exact ⟨pf.1, pf.2, hpf, rfl, rfl⟩

/-- The compound violation of the spec's proximity scenario (person with
confidence `0.8`, forklift with confidence `0.6`, 50 pixels apart). -/
def sampleCompoundViolation : Violation :=
  compoundViolation samplePerson closeForklift
    { standard := "OSHA", citation := "1910.178",
      description := "Powered industrial trucks", severity := "high" }

/-- Witness for C2 at the spec's proximity scenario: the emitted compound
violation's confidence is `min 0.8 0.6 = 0.6`. -/
theorem compound_confidence_min_witness :
    (sampleCompoundViolation ∈
      compoundViolations proxStore [samplePerson, closeForklift]) ∧
    (∃ p f : Detection,
      (p, f) ∈ proximityPairs [samplePerson, closeForklift] ∧
      sampleCompoundViolation.confidence = min p.confidence f.confidence ∧
      sampleCompoundViolation.evidence = .doubleBox p.bbox f.bbox) ∧
    sampleCompoundViolation.confidence = 6/10 := by
  have hpair : (samplePerson, closeForklift) ∈
      proximityPairs [samplePerson, closeForklift] :=
    mem_proximityPairs.mpr ⟨by simp, rfl, by simp, rfl,
      closePair_sample_close⟩
  have hv : sampleCompoundViolation ∈
      compoundViolations proxStore [samplePerson, closeForklift] :=
    mem_compoundViolations.mpr ⟨(samplePerson, closeForklift), hpair,
      { standard := "OSHA", citation := "1910.178",
        description := "Powered industrial trucks", severity := "high" },
      by rw [lookup_prox]; exact List.mem_singleton_self _, rfl⟩
  refine ⟨hv, compound_confidence_min _ _ _ hv, ?_⟩
  show min samplePerson.confidence closeForklift.confidence = 6/10
  norm_num [samplePerson, closeForklift]

/-- Claim C3 counterexample: a missing (or unreadable) standards
directory does not fail construction.  `Path.glob` yields nothing there,
so the engine is successfully built with an empty store — even when the
directory would have contained a malformed document. -/
theorem load_missing_dir_succeeds :
    loadStandards
      { accessible := false, files := [{ stem := "osha", parse := none }] }
      = .ok [] :=
  rfl

/-- Claim C3 amended: an inaccessible rule-definition directory loads an
empty store without error; a document that fails to parse in an
accessible directory aborts construction with an error, and the error
result carries no store, so the caller never receives a partially
constructed one. -/
theorem load_error_behaviour (dir : StandardsDir) :
    (dir.accessible = false → loadStandards dir = .ok []) ∧
    (dir.accessible = true → (∃ f ∈ dir.files, f.parse = none) →
      ∃ msg, loadStandards dir = .error msg) := by
  constructor
  · intro h
    simp [loadStandards, globJson, h, loadFiles]
  · intro h hmal
    have hglob : globJson dir = dir.files := by simp [globJson, h]
    rw [loadStandards, hglob]
    exact loadFiles_error_of_malformed _ _ hmal

/-- Witness for the amended C3 at two concrete directories. -/
theorem load_error_behaviour_witness :
    loadStandards { accessible := false, files := [] } = .ok [] ∧
      ∃ msg, loadStandards
        { accessible := true, files := [{ stem := "osha", parse := none }] }
        = .error msg :=
  ⟨(load_error_behaviour { accessible := false, files := [] }).1 rfl,
   (load_error_behaviour
      { accessible := true,
        files := [{ stem := "osha", parse := none }] }).2 rfl
     ⟨{ stem := "osha", parse := none }, by simp, rfl⟩⟩

/-- Claim C4: `evaluate` returns all direct violations (in
detection-input order and, within one detection, Rule Store lookup
order) followed by all compound violations (in pair-iteration order and,
within one pair, Rule Store lookup order).  Both sides are pure
functions of the detections and store, so identical inputs reproduce the
identical ordered list. -/
theorem evaluate_order (standards : Standards)
    (detections : List Detection) :
    evaluate standards detections =
      (detections.flatMap fun det =>
        (lookupCondition standards det.condition).map (directViolation det))
      ++ ((proximityPairs detections).flatMap fun pf =>
        (lookupCondition standards "forklift_pedestrian_proximity").map
          (compoundViolation pf.1 pf.2)) :=
  evaluate_eq standards detections

/-- Claim C5: every violation of the direct phase is built from a
detection of the input and a rule entry whose condition matches it, and
carries the entry's fields except `condition` (standard name
upper-cased, missing text fields defaulted), the detection's own
confidence and single-box evidence. -/
theorem direct_violation_fields (standards : Standards)
    (detections : List Detection) (v : Violation)
    (hv : v ∈ directViolations standards detections) :
    ∃ d ∈ detections, ∃ std ∈ standards, ∃ ce ∈ std.2,
      ce.2.condition = some d.condition ∧
      v = { standard := strUpper std.1, citation := ce.1,
            description := ce.2.description.getD "",
            severity := ce.2.severity.getD "",
            confidence := d.confidence,
            evidence := .singleBox d.bbox d.class_name } := by
  simp only [directViolations, List.mem_flatMap, List.mem_map] at hv
  obtain ⟨d, hd, m, hm, rfl⟩ := hv
  obtain ⟨std, hstd, ce, hce, hcond, rfl⟩ := mem_lookupCondition.mp hm
  exact ⟨d, hd, std, hstd, ce, hce, hcond, rfl⟩

/-- The violation of the spec's direct-match scenario. -/
def scenarioViolation : Violation :=
  { standard := "OSHA", citation := "1926.100",
    description := "Head protection required", severity := "high",
    confidence := 91/100,
    evidence := .singleBox ⟨10, 10, 50, 80⟩ "hardhat_missing" }

/-- Witness for C5 at the spec's scenario: the store
`{osha: {1926.100: {condition: hardhat_missing, ...}}}` and one matching
detection yield exactly the expected single violation. -/
theorem direct_violation_fields_witness :
    evaluate oshaStore [hardhatDetection] = [scenarioViolation] ∧
    scenarioViolation ∈ directViolations oshaStore [hardhatDetection] ∧
    (∃ d ∈ [hardhatDetection], ∃ std ∈ oshaStore, ∃ ce ∈ std.2,
      ce.2.condition = some d.condition ∧
      scenarioViolation =
        { standard := strUpper std.1, citation := ce.1,
          description := ce.2.description.getD "",
          severity := ce.2.severity.getD "",
          confidence := d.confidence,
          evidence := .singleBox d.bbox d.class_name }) := by
  have hdv : directViolations oshaStore [hardhatDetection] =
      [scenarioViolation] := rfl
  have hv : scenarioViolation ∈ directViolations oshaStore
      [hardhatDetection] := by
    rw [hdv]
    exact List.mem_singleton_self _
  exact ⟨rfl, hv, direct_violation_fields _ _ _ hv⟩

/-- Claim C6: given a constructed engine, evaluation is total (the
embedding is a total function): a condition present in no rule entry
makes lookup return the empty list (not an error), an empty detection
list evaluates to an empty violation list, and a detection with an
unmatched condition contributes no direct violations. -/
theorem lookup_unknown_empty (standards : Standards) (c : String)
    (h : ∀ std ∈ standards, ∀ ce ∈ std.2, ce.2.condition ≠ some c) :
    lookupCondition standards c = [] ∧ evaluate standards [] = [] ∧
      ∀ d : Detection, d.condition = c →
        directViolations standards [d] = [] := by
  have hl : lookupCondition standards c = [] := by
    rw [List.eq_nil_iff_forall_not_mem]
    intro m hm
    obtain ⟨std, hstd, ce, hce, hcond, -⟩ := mem_lookupCondition.mp hm
    exact h std hstd ce hce hcond
  refine ⟨hl, rfl, fun d hd => ?_⟩
  simp [directViolations, hd, hl]

/-- Witness for C6 at a concrete store and an absent condition. -/
theorem lookup_unknown_empty_witness :
    lookupCondition oshaStore "no_such_condition" = [] ∧
      evaluate oshaStore [] = [] ∧
      directViolations oshaStore
        [{ class_name := "x", condition := "no_such_condition",
           confidence := 1/2, bbox := ⟨0, 0, 0, 0⟩ }] = [] := by
  have h := lookup_unknown_empty oshaStore "no_such_condition" (by decide)
  exact ⟨h.1, h.2.1, h.2.2 _ rfl⟩

/-- Claim C7 counterexample: at the concrete pair 250 pixels apart, a
caller choosing threshold 300 would receive a compound match from the
spec's parametrised analyzer, but the code — whose threshold is the
constant `200.0` inside `evaluate` — accepts no pair and emits no
violation even though a proximity rule entry is loaded.  No caller
threshold reaches the matching decision. -/
theorem threshold_not_tunable_counterexample :
    (∃ m, m ∈ findCompoundConditions [samplePerson, farForklift] "person"
        "forklift" "forklift_pedestrian_proximity" 300) ∧
    proximityPairs [samplePerson, farForklift] = [] ∧
    evaluate proxStore [samplePerson, farForklift] = [] := by
  have hpairs : proximityPairs [samplePerson, farForklift] = [] := by
    rw [List.eq_nil_iff_forall_not_mem]
    intro pf hpf
    obtain ⟨hp, hpc, hf, hfc, hcl⟩ := mem_proximityPairs.mp hpf
    simp only [List.mem_cons, List.not_mem_nil, or_false] at hp hf
    rcases hf with hf1 | hf1
    · rw [hf1] at hfc
      exact absurd hfc (by decide)
    · rcases hp with hp1 | hp1
      · rw [hp1, hf1] at hcl
        rw [closePair_sample_far] at hcl
        exact Bool.false_ne_true hcl
      · rw [hp1] at hpc
        exact absurd hpc (by decide)
  have hm : ∃ m, m ∈ findCompoundConditions [samplePerson, farForklift]
      "person" "forklift" "forklift_pedestrian_proximity" 300 :=
    ⟨_, mem_findCompoundConditions.mpr ⟨samplePerson, ⟨by simp, rfl⟩,
      farForklift, ⟨by simp, rfl⟩, closeAt_300_far, rfl⟩⟩
  have hdirect : directViolations proxStore [samplePerson, farForklift]
      = [] := rfl
  have hcomp : compoundViolations proxStore [samplePerson, farForklift]
      = [] := by
    unfold compoundViolations
    rw [hpairs]
    rfl
  refine ⟨hm, hpairs, ?_⟩
  rw [evaluate_eq, hdirect, hcomp]
  rfl

/-- Claim C7 amended: the compound matches of the code equal the spec's
parametrised analyzer instantiated at the one fixed threshold `200.0`
hard-coded in `evaluate` — the threshold is a baked-in constant, not a
caller argument. -/
theorem compound_threshold_fixed (detections : List Detection) :
    codeCompoundMatches detections =
      findCompoundConditions detections "person" "forklift"
        "forklift_pedestrian_proximity" distanceThreshold := by
  have hca : closeAt distanceThreshold = closePair := rfl
  unfold codeCompoundMatches proximityPairs findCompoundConditions
  rw [hca]
  by_cases hg : ((detections.filter fun d => d.condition == "person").isEmpty
      || (detections.filter fun d => d.condition == "forklift").isEmpty)
      = true
  · rcases Bool.or_eq_true_iff.mp hg with h | h <;>
      rw [List.isEmpty_iff] at h <;>
      simp [hg, h]
  · rw [Bool.not_eq_true] at hg
    simp only [hg, Bool.false_eq_true, if_false]
    rw [List.map_flatMap]
    simp only [List.map_map]
    congr 1

/-- Claim C8: `evaluate` never mutates the loaded standards: the
state-passing rendering of the method returns the same `self.standards`
it started from, alongside exactly the violations of the pure
`evaluate`. -/
theorem evaluate_preserves_standards (standards : Standards)
    (detections : List Detection) :
    evaluateS standards detections =
      (evaluate standards detections, standards) := by
  simp only [evaluateS, evaluate]
  rw [directLoopS_eq]
  by_cases hg : ((detections.filter fun d => d.condition == "person").isEmpty
      || (detections.filter fun d => d.condition == "forklift").isEmpty)
      = true
  · simp [hg, directViolations]
  · rw [Bool.not_eq_true] at hg
    simp [hg, personLoopS_eq, directViolations]

/-- Claim C9: no deduplication anywhere: `k` identical copies of a
detection matching `n` rule entries produce `k * n` direct violations;
every accepted pair produces one violation per matching proximity entry;
and `evaluate` returns every direct and every compound violation. -/
theorem no_deduplication (standards : Standards) (d : Detection) (k : ℕ)
    (detections : List Detection) :
    (directViolations standards (List.replicate k d)).length =
      k * (lookupCondition standards d.condition).length ∧
    (compoundViolations standards detections).length =
      (proximityPairs detections).length *
        (lookupCondition standards "forklift_pedestrian_proximity").length ∧
    (evaluate standards detections).length =
      (directViolations standards detections).length +
        (compoundViolations standards detections).length := by
  refine ⟨?_, length_flatMap_map_const .., by
    rw [evaluate_eq, List.length_append]⟩
  induction k with
  | zero => simp [directViolations]
  | succ n ih =>
    have hstep : directViolations standards (List.replicate (n + 1) d) =
        (lookupCondition standards d.condition).map (directViolation d) ++
          directViolations standards (List.replicate n d) := by
      rw [List.replicate_succ]
      simp [directViolations]
    rw [hstep, List.length_append, List.length_map, ih, Nat.succ_mul]
    omega

/-- Claim C10: lookup tolerates structurally incomplete rule entries: an
entry with no `condition` field matches nothing (and its presence
anywhere in the store leaves every lookup unchanged), while a matching
entry always produces a match in which each absent `description` or
`severity` field — independently — is the empty string and each present
one is carried over verbatim. -/
theorem lookup_tolerates_incomplete (std_name citation cond : String)
    (entry : RuleEntry) :
    (entry.condition = none →
      matchEntry std_name citation entry cond = none ∧
      ∀ (pre post : Standards) (doc1 doc2 : StandardDoc),
        lookupCondition
          (pre ++ (std_name, doc1 ++ (citation, entry) :: doc2) :: post)
          cond =
        lookupCondition (pre ++ (std_name, doc1 ++ doc2) :: post) cond) ∧
    (entry.condition = some cond →
      ∃ m, matchEntry std_name citation entry cond = some m ∧
        m.standard = strUpper std_name ∧ m.citation = citation ∧
        (entry.description = none → m.description = "") ∧
        (∀ text, entry.description = some text → m.description = text) ∧
        (entry.severity = none → m.severity = "") ∧
        (∀ text, entry.severity = some text → m.severity = text)) := by
  constructor
  · intro h
    have hnone : matchEntry std_name citation entry cond = none := by
      rw [matchEntry, h]
      simp
    refine ⟨hnone, fun pre post doc1 doc2 => ?_⟩
    simp [lookupCondition, List.flatMap_append, List.flatMap_cons,
      List.filterMap_append, List.filterMap_cons, hnone]
  · intro h
    refine ⟨{ standard := strUpper std_name, citation := citation,
              description := entry.description.getD "",
              severity := entry.severity.getD "" },
      by rw [matchEntry, if_pos h], rfl, rfl, ?_, ?_, ?_, ?_⟩
    · intro hd
      rw [hd]
      rfl
    · intro text hd
      rw [hd]
      rfl
    · intro hs
      rw [hs]
      rfl
    · intro text hs
      rw [hs]
      rfl

/-- An entry with every optional field absent. -/
def emptyEntry : RuleEntry :=
  { condition := none, description := none, severity := none }

/-- An entry with a condition but no description and no severity. -/
def spillEntry : RuleEntry :=
  { condition := some "spill", description := none, severity := none }

/-- An entry missing only its description; the severity is present. -/
def descMissingEntry : RuleEntry :=
  { condition := some "spill", description := none,
    severity := some "high" }

/-- An entry missing only its severity; the description is present. -/
def sevMissingEntry : RuleEntry :=
  { condition := some "spill", description := some "Spill hazard",
    severity := none }

/-- Witness for C10: the condition-less entry matches nothing and leaves
a lookup unchanged; entries missing only the description, only the
severity, or both get the empty string exactly for the absent fields
while present fields survive. -/
theorem lookup_tolerates_incomplete_witness :
    (matchEntry "osha" "1910.23" emptyEntry "spill" = none ∧
      lookupCondition [("osha", [("1910.23", emptyEntry)])] "spill" =
        lookupCondition [("osha", [])] "spill") ∧
    (∃ m, matchEntry "osha" "1910.23" descMissingEntry "spill" = some m ∧
      m.description = "" ∧ m.severity = "high") ∧
    (∃ m, matchEntry "osha" "1910.23" sevMissingEntry "spill" = some m ∧
      m.description = "Spill hazard" ∧ m.severity = "") ∧
    (∃ m, matchEntry "osha" "1910.23" spillEntry "spill" = some m ∧
      m.description = "" ∧ m.severity = "") := by
  have t1 := lookup_tolerates_incomplete "osha" "1910.23" "spill" emptyEntry
  obtain ⟨m1, h1, -, -, hd1n, -, -, hs1s⟩ :=
    (lookup_tolerates_incomplete "osha" "1910.23" "spill"
      descMissingEntry).2 rfl
  obtain ⟨m2, h2, -, -, -, hd2s, hs2n, -⟩ :=
    (lookup_tolerates_incomplete "osha" "1910.23" "spill"
      sevMissingEntry).2 rfl
  obtain ⟨m3, h3, -, -, hd3n, -, hs3n, -⟩ :=
    (lookup_tolerates_incomplete "osha" "1910.23" "spill" spillEntry).2 rfl
  exact ⟨⟨(t1.1 rfl).1, (t1.1 rfl).2 [] [] [] []⟩,
    ⟨m1, h1, hd1n rfl, hs1s "high" rfl⟩,
    ⟨m2, h2, hd2s "Spill hazard" rfl, hs2n rfl⟩,
    ⟨m3, h3, hd3n rfl, hs3n rfl⟩⟩

end EhsAudit
